import Mathlib

/-!
A shallow embedding of the Sleng-API slang-dictionary service (a single Go
source file, `main.go`) together with proofs about its behaviour.

Modelling conventions, spelled out once here:

* Go strings are Lean `String`s; operations that the source applies to them
  (`strings.TrimSpace`, `strings.EqualFold`, `strings.ToLower`,
  `strings.Split`, `strconv.Atoi`, `strings.TrimPrefix`) are re-implemented
  below on the Unicode code points of the string.  The case-folding and
  whitespace tables cover the character ranges that actually occur in the
  program and its data (ASCII and the basic Cyrillic block); this is the
  only simplification relative to Go's full Unicode tables.
* Go slices distinguish `nil` from an empty non-nil slice.  For the
  `Synonyms []string` field this distinction is observable through the
  `omitempty` JSON tag, so it is modelled as `Option (List String)` with
  `none` standing for the nil slice.  For the `Entries []SlangEntry` field
  the distinction is not observable by any operation of the program (both
  marshal back to themselves on a round trip and behave identically in
  `len`, `append` and slicing), so it is collapsed to `List SlangEntry`.
* JSON marshalling/unmarshalling is modelled on a JSON value AST rather
  than on byte strings: `json.MarshalIndent` followed by `json.Unmarshal`
  factors through the JSON value unambiguously (the document contains only
  objects, arrays and strings), so text formatting is irrelevant.
* Each HTTP handler loads the document once at the start and saves it at
  most once on success, so a handler is modelled as a function from the
  loaded document (plus the decoded request data) to the pair of the HTTP
  response and the document that ends up stored.
-/

/-! ## Go string primitives -/

/-- The whitespace test used by `strings.TrimSpace` (`unicode.IsSpace`),
restricted to the ASCII whitespace characters. -/
def goIsSpace (c : Char) : Bool :=
  c = ' ' ∨ c = '\t' ∨ c = '\n' ∨ c = '\x0b' ∨ c = '\x0c' ∨ c = '\r'

/-- `strings.TrimSpace`: drop leading and trailing whitespace. -/
def trimSpace (s : String) : String :=
  String.mk (((s.data.dropWhile goIsSpace).reverse.dropWhile goIsSpace).reverse)

/-- Simple case folding of one character, as used by `strings.EqualFold`
and `strings.ToLower`: ASCII `A`–`Z` and Cyrillic `А`–`Я`/`Ё` map to their
lowercase forms, every other character is fixed. -/
def goFoldChar (c : Char) : Char :=
  if 'A' ≤ c ∧ c ≤ 'Z' then Char.ofNat (c.toNat + 32)
  else if 'А' ≤ c ∧ c ≤ 'Я' then Char.ofNat (c.toNat + 32)
  else if c = 'Ё' then 'ё'
  else c

/-- `strings.EqualFold s t`: the two strings have the same length in code
points and corresponding code points are equal under simple case folding. -/
def equalFold (s t : String) : Bool :=
  s.data.map goFoldChar == t.data.map goFoldChar

/-- `strings.ToLower`, over the same character ranges as `goFoldChar`. -/
def goToLower (s : String) : String :=
  String.mk (s.data.map goFoldChar)

/-- `strings.Split s ","`: split at every comma. -/
def splitComma (s : String) : List String :=
  s.split (fun c => c = ',')

/-- Decimal value of a digit list (most significant first), used by `atoi`. -/
def digitsVal (cs : List Char) : Nat :=
  cs.foldl (fun acc c => acc * 10 + (c.toNat - '0'.toNat)) 0

/-- `strconv.Atoi`: an optional single `+`/`-` sign followed by at least one
decimal digit, with the result required to fit in a 64-bit signed integer;
anything else is a parse error (`none`).  In particular leading zeros and a
leading `+` are accepted. -/
def atoi (s : String) : Option Int :=
  let (sign, digits) : Int × List Char :=
    match s.data with
    | '+' :: r => (1, r)
    | '-' :: r => (-1, r)
    | r => (1, r)
  if digits = [] then none
  else if digits.all (fun c => '0' ≤ c ∧ c ≤ '9') then
    let n : Int := sign * (digitsVal digits : Int)
    if -(2 ^ 63) ≤ n ∧ n ≤ 2 ^ 63 - 1 then some n else none
  else none

/-- `strings.TrimPrefix r.URL.Path "/api/entries/"` as performed by
`handleDeleteEntry`: if the path starts with the route prefix, the rest of
the path, otherwise the path unchanged. -/
def trimPathIndex (path : String) : String :=
  if "/api/entries/".data.isPrefixOf path.data
  then String.mk (path.data.drop "/api/entries/".data.length)
  else path

/-! ## The data model (`SlangEntry`, `User`, `SlangData`) -/

/-- One dictionary entry.  `origin` carries the `omitempty` JSON tag (a Go
string, absent when empty); `synonyms` is a Go `[]string` with `omitempty`,
modelled as `Option (List String)` with `none` for the nil slice. -/
structure SlangEntry where
  word : String
  meaning : String
  «example» : String
  origin : String
  synonyms : Option (List String)
deriving DecidableEq

/-- The registered user: username and password stored verbatim. -/
structure User where
  username : String
  password : String
deriving DecidableEq

/-- The persisted document: user, version tag, ordered entry list. -/
structure SlangData where
  user : User
  version : String
  entries : List SlangEntry
deriving DecidableEq

/-- The request body shape of `/api/register` and `/api/login`
(the local `Req` struct of both handlers). -/
structure Creds where
  username : String
  password : String
deriving DecidableEq

/-- The default document substituted by `loadSlangData` when the backing
file is missing or unreadable or unparsable. -/
def defaultSlangData : SlangData :=
  { user := { username := "", password := "" }, version := "1.0", entries := [] }

/-! ## JSON values, marshalling (`saveSlangData`) and unmarshalling
(`loadSlangData`, `readJSON`) -/

/-- A JSON value.  Numbers and booleans never occur in this program's
document or request bodies, so they are omitted from the AST. -/
inductive Json where
  | str : String → Json
  | arr : List Json → Json
  | obj : List (String × Json) → Json
  | null : Json

/-- The `synonyms` field as emitted by `encoding/json` for a
`[]string` with the `omitempty` tag: omitted when the slice is nil
(`none`) or has length 0, an array of strings otherwise. -/
def marshalSynonyms : Option (List String) → List (String × Json)
  | none => []
  | some l => if l.length = 0 then [] else [("synonyms", Json.arr (l.map Json.str))]

/-- JSON object emitted for one `SlangEntry`: `word`, `meaning`, `example`
always, `origin` unless empty (`omitempty` on a string), `synonyms` unless
empty (`omitempty` on a slice). -/
def marshalEntry (e : SlangEntry) : Json :=
  Json.obj
    ([("word", Json.str e.word), ("meaning", Json.str e.meaning),
      ("example", Json.str e.«example»)]
      ++ (if e.origin = "" then [] else [("origin", Json.str e.origin)])
      ++ marshalSynonyms e.synonyms)

/-- JSON object emitted for the `User` struct (no `omitempty`: both fields
always present, the password stored verbatim). -/
def marshalUser (u : User) : Json :=
  Json.obj [("username", Json.str u.username), ("password", Json.str u.password)]

/-- `saveSlangData`'s serialization of the whole document
(`json.MarshalIndent`, viewed at the JSON-value level). -/
def saveSlangData (d : SlangData) : Json :=
  Json.obj
    [("user", marshalUser d.user), ("version", Json.str d.version),
     ("entries", Json.arr (d.entries.map marshalEntry))]

/-- Decode a JSON array of strings (the `[]string` decode loop). -/
def decodeStrList : List Json → Option (List String)
  | [] => some []
  | Json.str s :: js => (decodeStrList js).map (fun ss => s :: ss)
  | _ :: _ => none

/-- One step of `encoding/json`'s decode loop for a `SlangEntry` object:
set the struct field named by the key (later duplicates overwrite earlier
ones, as in Go), fail on a type mismatch, and on an unknown key fail when
`strict` (the `DisallowUnknownFields` mode of `readJSON`) or skip the key
when lenient (`json.Unmarshal` as used by `loadSlangData`). -/
def entryFieldStep (strict : Bool) (acc : SlangEntry) : String × Json → Option SlangEntry
  | ("word", Json.str s) => some { acc with word := s }
  | ("meaning", Json.str s) => some { acc with meaning := s }
  | ("example", Json.str s) => some { acc with «example» := s }
  | ("origin", Json.str s) => some { acc with origin := s }
  | ("synonyms", Json.arr l) =>
      (decodeStrList l).map (fun ss => { acc with synonyms := some ss })
  | ("synonyms", Json.null) => some acc
  | (k, _) =>
      if k = "word" ∨ k = "meaning" ∨ k = "example" ∨ k = "origin" ∨ k = "synonyms"
      then none
      else if strict then none else some acc

/-- Decode a JSON value into a `SlangEntry` (zero value to start, fields
set in order of appearance). -/
def decodeEntry (strict : Bool) : Json → Option SlangEntry
  | Json.obj fields => fields.foldlM (entryFieldStep strict) ⟨"", "", "", "", none⟩
  | _ => none

/-- Decode a JSON array elementwise into entries. -/
def decodeEntries (strict : Bool) : List Json → Option (List SlangEntry)
  | [] => some []
  | j :: js => do
      let e ← decodeEntry strict j
      let es ← decodeEntries strict js
      pure (e :: es)

/-- One step of the decode loop for the `User` struct (lenient: only ever
decoded inside `loadSlangData`, whose `json.Unmarshal` ignores unknown
fields). -/
def userFieldStep (acc : User) : String × Json → Option User
  | ("username", Json.str s) => some { acc with username := s }
  | ("password", Json.str s) => some { acc with password := s }
  | (k, _) =>
      if k = "username" ∨ k = "password" then none else some acc

/-- Decode a JSON value into a `User`. -/
def decodeUser : Json → Option User
  | Json.obj fields => fields.foldlM userFieldStep ⟨"", ""⟩
  | _ => none

/-- One step of the decode loop for the top-level `SlangData` struct
(lenient). -/
def dataFieldStep (acc : SlangData) : String × Json → Option SlangData
  | ("user", j) => (decodeUser j).map (fun u => { acc with user := u })
  | ("version", Json.str s) => some { acc with version := s }
  | ("entries", Json.arr l) => (decodeEntries false l).map (fun es => { acc with entries := es })
  | ("entries", Json.null) => some { acc with entries := [] }
  | (k, _) =>
      if k = "user" ∨ k = "version" ∨ k = "entries" then none else some acc

/-- `json.Unmarshal` into a `SlangData` (lenient field matching), at the
JSON-value level. -/
def unmarshalSlangData : Json → Option SlangData
  | Json.obj fields => fields.foldlM dataFieldStep ⟨⟨"", ""⟩, "", []⟩
  | _ => none

/-- `loadSlangData`: a missing/unreadable file (`none`) or a parse failure
yields the default document, otherwise the parsed document. -/
def loadSlangData (file : Option Json) : SlangData :=
  match file with
  | none => defaultSlangData
  | some j => (unmarshalSlangData j).getD defaultSlangData

/-- One step of the strict decode loop for the `Creds` request body
(`readJSON` with `DisallowUnknownFields`). -/
def credsFieldStep (acc : Creds) : String × Json → Option Creds
  | ("username", Json.str s) => some { acc with username := s }
  | ("password", Json.str s) => some { acc with password := s }
  | _ => none

/-- Decode the `{username,password}` request body of `/api/register` and
`/api/login`. -/
def decodeCreds : Json → Option Creds
  | Json.obj fields => fields.foldlM credsFieldStep ⟨"", ""⟩
  | _ => none

/-! ## HTTP handlers -/

/-- An HTTP response: either `respondJSON w code payload` or
`http.Error w message code`. -/
inductive HttpResponse where
  | ok : Nat → Json → HttpResponse
  | err : Nat → String → HttpResponse

/-- Whether the response is a `respondJSON` success (as opposed to an
`http.Error`). -/
def HttpResponse.isOk : HttpResponse → Bool
  | .ok _ _ => true
  | .err _ _ => false

/-- Status code of a response. -/
def HttpResponse.code : HttpResponse → Nat
  | .ok c _ => c
  | .err c _ => c

/-- `GET /api/entries`: respond with the stored entry list. -/
def handleGetEntries (d : SlangData) : HttpResponse × SlangData :=
  (.ok 200 (Json.arr (d.entries.map marshalEntry)), d)

/-- `POST /api/entries` (`handleAddEntry`), taking the loaded document and
the decoded request body (`none` = `readJSON` failed): validate that word
and meaning are non-empty after trimming, reject a case-insensitive
duplicate word with 409, otherwise append the entry verbatim and save. -/
def handleAddEntry (d : SlangData) (body : Option SlangEntry) : HttpResponse × SlangData :=
  match body with
  | none => (.err 400 "Неверный JSON", d)
  | some entry =>
    if trimSpace entry.word = "" ∨ trimSpace entry.meaning = "" then
      (.err 400 "Слово и значение обязательны", d)
    else if d.entries.any (fun e => equalFold e.word entry.word) then
      (.err 409 "Слово уже существует", d)
    else
      (.ok 201 (Json.obj [("message", Json.str "Слово добавлено")]),
       { d with entries := d.entries ++ [entry] })

/-- `DELETE /api/entries/{index}` (`handleDeleteEntry`): strip the route
prefix from the path, parse with `strconv.Atoi` (400 on parse error or
index < 1), 404 when the index exceeds the entry count, otherwise splice
the entry out (`entries[:index-1] ++ entries[index:]`) and save. -/
def handleDeleteEntry (d : SlangData) (path : String) : HttpResponse × SlangData :=
  match atoi (trimPathIndex path) with
  | none => (.err 400 "Неверный индекс", d)
  | some index =>
    if index < 1 then (.err 400 "Неверный индекс", d)
    else if index > (d.entries.length : Int) then (.err 404 "Слово не найдено", d)
    else
      (.ok 200 (Json.obj [("message", Json.str "Слово удалено")]),
       { d with entries := d.entries.take (index.toNat - 1) ++ d.entries.drop index.toNat })

/-- `GET /api/user` (`handleGetUser`): 401 when no user is registered,
otherwise a response carrying only the username (the password is not
written to the response). -/
def handleGetUser (d : SlangData) : HttpResponse × SlangData :=
  if d.user.username = "" then (.err 401 "Пользователь не зарегистрирован", d)
  else (.ok 200 (Json.obj [("username", Json.str d.user.username)]), d)

/-- `POST /api/register` (`handleRegister`): after decoding the body,
validate (non-empty username, password at least 4 bytes) — this check comes
before the already-registered check — then 409 when a user exists,
otherwise store the user and save. -/
def handleRegister (d : SlangData) (body : Option Creds) : HttpResponse × SlangData :=
  match body with
  | none => (.err 400 "Неверный JSON", d)
  | some req =>
    if req.username = "" ∨ req.password.utf8ByteSize < 4 then
      (.err 400 "Логин не может быть пустым, пароль — минимум 4 символа", d)
    else if d.user.username ≠ "" then
      (.err 409 "Пользователь уже зарегистрирован", d)
    else
      (.ok 201 (Json.obj [("message", Json.str "Регистрация успешна")]),
       { d with user := { username := req.username, password := req.password } })

/-- `POST /api/login` (`handleLogin`): 401 not-registered when the stored
username is empty, success exactly when both supplied fields equal the
stored ones, 401 invalid-credentials otherwise.  Never saves. -/
def handleLogin (d : SlangData) (body : Option Creds) : HttpResponse × SlangData :=
  match body with
  | none => (.err 400 "Неверный JSON", d)
  | some req =>
    if d.user.username = "" then (.err 401 "Сначала зарегистрируйтесь", d)
    else if req.username = d.user.username ∧ req.password = d.user.password then
      (.ok 200 (Json.obj [("message", Json.str "Успешный вход"),
                          ("username", Json.str d.user.username)]), d)
    else (.err 401 "Неверный логин или пароль", d)

/-- HTTP request methods. -/
inductive Method where
  | get | post | delete | put | patch | head | options
deriving DecidableEq

/-- The request router of `startAPIServer`: `/api/entries` dispatches GET
and POST and rejects other methods with 405; the `/api/entries/` subtree
accepts only DELETE (405 otherwise); `/api/user`, `/api/register` and
`/api/login` are registered via bare `http.HandleFunc` with no method
check, so every method reaches the handler body.  The request body is the
JSON value of the request (`none` = unparsable), decoded per-handler by
`readJSON`. -/
def serveAPI (d : SlangData) (m : Method) (path : String) (body : Option Json) :
    HttpResponse × SlangData :=
  if path = "/api/entries" then
    match m with
    | .get => handleGetEntries d
    | .post => handleAddEntry d (body.bind (decodeEntry true))
    | _ => (.err 405 "Метод не поддерживается", d)
  else if "/api/entries/".data.isPrefixOf path.data then
    if m = .delete then handleDeleteEntry d path
    else (.err 405 "Только DELETE разрешён для этого пути", d)
  else if path = "/api/user" then handleGetUser d
  else if path = "/api/register" then handleRegister d (body.bind decodeCreds)
  else if path = "/api/login" then handleLogin d (body.bind decodeCreds)
  else (.err 404 "404 page not found", d)

/-! ## Interactive session operations -/

/-- Outcome of the interactive `addNewEntry` (each constructor corresponds
to one terminal `fmt.Printf` of the source; the word is carried instead of
the formatted message). -/
inductive AddOutcome where
  | duplicate : String → AddOutcome
  | added : String → AddOutcome
deriving DecidableEq

/-- The interactive `addNewEntry`, taking the five input lines.  Note the
order of the source: the (trimmed) word is checked against existing words
case-insensitively *before* the remaining prompts, and there is no
emptiness validation of word or meaning; every field is trimmed; a
non-empty synonyms line is split on commas with each piece trimmed, an
empty line leaves the synonyms slice nil (`none`). -/
def addNewEntryCLI (d : SlangData) (wordIn meaningIn exampleIn originIn synIn : String) :
    AddOutcome × SlangData :=
  let word := trimSpace wordIn
  if d.entries.any (fun e => equalFold e.word word) then (.duplicate word, d)
  else
    let syn := trimSpace synIn
    let entry : SlangEntry :=
      { word := word, meaning := trimSpace meaningIn, «example» := trimSpace exampleIn,
        origin := trimSpace originIn,
        synonyms := if syn = "" then none else some ((splitComma syn).map trimSpace) }
    (.added word, { d with entries := d.entries ++ [entry] })

/-- Outcome of the interactive `deleteEntry` (one constructor per terminal
`fmt.Println`/`fmt.Printf` of the source). -/
inductive DeleteOutcome where
  | emptyDict : DeleteOutcome
  | badNumber : DeleteOutcome
  | cancelled : DeleteOutcome
  | deleted : String → DeleteOutcome
deriving DecidableEq

/-- The confirmation test of the interactive delete:
`strings.ToLower(confirm)` equal to the yes-words or `"y"`. -/
def isAffirmative (confirm : String) : Bool :=
  goToLower confirm = "да" ∨ goToLower confirm = "д" ∨ goToLower confirm = "y"

/-- The interactive `deleteEntry`, taking the scanned index (`none` =
`fmt.Scanln` failed) and the confirmation line: nothing to delete on an
empty dictionary; scan failure or an index outside `[1, len]` is *no such
number*; then the entry's word is shown and, only on an affirmative
confirmation, the list is spliced and saved. -/
def deleteEntryCLI (d : SlangData) (indexIn : Option Int) (confirm : String) :
    DeleteOutcome × SlangData :=
  if d.entries.length = 0 then (.emptyDict, d)
  else
    match indexIn with
    | none => (.badNumber, d)
    | some index =>
      if index < 1 ∨ index > (d.entries.length : Int) then (.badNumber, d)
      else
        let wordToDelete := (d.entries.getD (index.toNat - 1) ⟨"", "", "", "", none⟩).word
        if isAffirmative confirm then
          (.deleted wordToDelete,
           { d with entries := d.entries.take (index.toNat - 1) ++ d.entries.drop index.toNat })
        else (.cancelled, d)

/-- Outcome of the interactive `register`. -/
inductive RegOutcome where
  | alreadyRegistered : RegOutcome
  | emptyUsername : RegOutcome
  | shortPassword : RegOutcome
  | registered : String → RegOutcome
deriving DecidableEq

/-- The interactive `register`, taking the two input lines.  Unlike the
HTTP handler, the already-registered check comes first, before any input
is read or validated. -/
def registerCLI (d : SlangData) (usernameIn passwordIn : String) : RegOutcome × SlangData :=
  if d.user.username ≠ "" then (.alreadyRegistered, d)
  else
    let username := trimSpace usernameIn
    if username = "" then (.emptyUsername, d)
    else
      let password := trimSpace passwordIn
      if password.utf8ByteSize < 4 then (.shortPassword, d)
      else (.registered username,
            { d with user := { username := username, password := password } })

/-! ## Helper lemmas -/

/-- Two strings of different code-point length are never `EqualFold`. -/
theorem equalFold_false_of_length_ne (s t : String)
    (h : s.data.length ≠ t.data.length) : equalFold s t = false := by
  unfold equalFold
  rw [beq_eq_false_iff_ne]
  intro hc
  exact h (by simpa using congrArg List.length hc)

/-- Prepending a space does not change the trimmed value. -/
theorem trimSpace_space_prepend (w : String) : trimSpace (" " ++ w) = trimSpace w := by
  unfold trimSpace
  rw [String.data_append]
  simp [List.dropWhile_cons, goIsSpace]

/-- `decodeStrList` is a left inverse of mapping `Json.str`. -/
theorem decodeStrList_map_str (l : List String) :
    decodeStrList (l.map Json.str) = some l := by
  induction l with
  | nil => rfl
  | cons s ss ih => simp [decodeStrList, ih]

/-- Decoding an entry marshalled without an empty-but-present synonyms
list recovers the entry. -/
theorem decodeEntry_marshalEntry (e : SlangEntry) (h : e.synonyms ≠ some []) :
    decodeEntry false (marshalEntry e) = some e := by
  obtain ⟨w, m, ex, og, syn⟩ := e
  by_cases hog : og = "" <;> rcases syn with _ | l
  · subst hog; rfl
  · have hl : l ≠ [] := by intro hc; exact h (by simp [hc])
    subst hog
    simp [marshalEntry, marshalSynonyms, decodeEntry, entryFieldStep,
      List.length_eq_zero.ne.mpr hl, decodeStrList_map_str, List.foldlM]
  · simp [marshalEntry, marshalSynonyms, decodeEntry, entryFieldStep, hog, List.foldlM]
  · have hl : l ≠ [] := by intro hc; exact h (by simp [hc])
    simp [marshalEntry, marshalSynonyms, decodeEntry, entryFieldStep, hog,
      List.length_eq_zero.ne.mpr hl, decodeStrList_map_str, List.foldlM]

/-- Elementwise version of the previous lemma. -/
theorem decodeEntries_map_marshalEntry (es : List SlangEntry)
    (h : ∀ e ∈ es, e.synonyms ≠ some []) :
    decodeEntries false (es.map marshalEntry) = some es := by
  induction es with
  | nil => rfl
  | cons e es ih =>
    simp only [List.map_cons, decodeEntries,
      decodeEntry_marshalEntry e (h e (List.mem_cons_self e es)),
      ih (fun x hx => h x (List.mem_cons_of_mem e hx))]
    rfl

/-- Decoding a marshalled user recovers the user. -/
theorem decodeUser_marshalUser (u : User) : decodeUser (marshalUser u) = some u := rfl

/-! ## Claim theorems -/

/-- C4: for a document with a registered user (non-empty username), an HTTP
login succeeds exactly when the supplied username and password are both
case-sensitively equal to the stored ones; any mismatch yields the 401
invalid-credentials error and the document is never modified. -/
theorem login_exact_match (d : SlangData) (req : Creds) (h : d.user.username ≠ "") :
    ((handleLogin d (some req)).1.isOk = true ↔
      req.username = d.user.username ∧ req.password = d.user.password)
    ∧ (¬(req.username = d.user.username ∧ req.password = d.user.password) →
        (handleLogin d (some req)).1 = .err 401 "Неверный логин или пароль")
    ∧ (handleLogin d (some req)).2 = d := by
  by_cases hm : req.username = d.user.username ∧ req.password = d.user.password <;>
    simp [handleLogin, h, hm, HttpResponse.isOk]

/-- Witness for `login_exact_match` at a concrete document and request. -/
theorem login_exact_match_witness :
    (handleLogin ⟨⟨"ann", "secr3t"⟩, "1.0", []⟩ (some ⟨"ann", "secr3t"⟩)).1.isOk = true
    ∧ (handleLogin ⟨⟨"ann", "secr3t"⟩, "1.0", []⟩ (some ⟨"ann", "wrong"⟩)).1
        = .err 401 "Неверный логин или пароль" :=
  ⟨(login_exact_match ⟨⟨"ann", "secr3t"⟩, "1.0", []⟩ ⟨"ann", "secr3t"⟩ (by decide)).1.mpr
      (by decide),
   (login_exact_match ⟨⟨"ann", "secr3t"⟩, "1.0", []⟩ ⟨"ann", "wrong"⟩ (by decide)).2.1
      (by decide)⟩

/-- C8: the `GET /api/user` response is independent of the stored password
— two documents that differ only in the password field produce the same
response — and the response is either the 401 not-registered error (empty
username) or a JSON object carrying only the username. -/
theorem getUser_no_password (d1 d2 : SlangData)
    (hu : d1.user.username = d2.user.username) (_hv : d1.version = d2.version)
    (_he : d1.entries = d2.entries) :
    (handleGetUser d1).1 = (handleGetUser d2).1
    ∧ (d1.user.username = "" →
        (handleGetUser d1).1 = .err 401 "Пользователь не зарегистрирован")
    ∧ (d1.user.username ≠ "" →
        (handleGetUser d1).1 = .ok 200 (Json.obj [("username", Json.str d1.user.username)])) := by
  by_cases h0 : d1.user.username = "" <;>
    simp [handleGetUser, h0, hu ▸ h0, hu]

/-- Witness for `getUser_no_password`: documents differing only in the
password produce the same response. -/
theorem getUser_no_password_witness :
    (handleGetUser ⟨⟨"ann", "secr3t"⟩, "1.0", []⟩).1
      = (handleGetUser ⟨⟨"ann", "other"⟩, "1.0", []⟩).1 :=
  (getUser_no_password ⟨⟨"ann", "secr3t"⟩, "1.0", []⟩ ⟨⟨"ann", "other"⟩, "1.0", []⟩
    rfl rfl rfl).1

/-- C5 counterexample: on a document that already has a registered user,
an HTTP register call with an empty supplied username fails with the 400
validation error, not with the 409 already-registered error the claim
requires. -/
theorem register_conflict_cex :
    handleRegister ⟨⟨"ann", "secr3t"⟩, "1.0", []⟩ (some ⟨"", "xxxx"⟩)
      = (.err 400 "Логин не может быть пустым, пароль — минимум 4 символа",
         ⟨⟨"ann", "secr3t"⟩, "1.0", []⟩) := rfl

/-- C5 (amended): on a document that already has a registered user, an HTTP
register call fails with 409 for every supplied credential pair that passes
the validation check (non-empty username, password of at least 4 bytes),
fails with the 400 validation error otherwise, and the interactive register
fails with the already-registered message before reading any input; in all
cases the document is unchanged. -/
theorem register_single_slot (d : SlangData) (h : d.user.username ≠ "")
    (req : Creds) (u p : String) :
    (¬(req.username = "" ∨ req.password.utf8ByteSize < 4) →
        handleRegister d (some req) = (.err 409 "Пользователь уже зарегистрирован", d))
    ∧ ((req.username = "" ∨ req.password.utf8ByteSize < 4) →
        handleRegister d (some req)
          = (.err 400 "Логин не может быть пустым, пароль — минимум 4 символа", d))
    ∧ registerCLI d u p = (.alreadyRegistered, d) := by
  refine ⟨fun hv => ?_, fun hv => ?_, ?_⟩
  · simp [handleRegister, hv, h]
  · simp [handleRegister, hv]
  · simp [registerCLI, h]

/-- Witness for `register_single_slot` at concrete inputs. -/
theorem register_single_slot_witness :
    handleRegister ⟨⟨"ann", "secr3t"⟩, "1.0", []⟩ (some ⟨"bob", "pass123"⟩)
      = (.err 409 "Пользователь уже зарегистрирован", ⟨⟨"ann", "secr3t"⟩, "1.0", []⟩)
    ∧ registerCLI ⟨⟨"ann", "secr3t"⟩, "1.0", []⟩ "bob" "pass123"
      = (.alreadyRegistered, ⟨⟨"ann", "secr3t"⟩, "1.0", []⟩) :=
  ⟨(register_single_slot ⟨⟨"ann", "secr3t"⟩, "1.0", []⟩ (by decide) ⟨"bob", "pass123"⟩
      "bob" "pass123").1 (by decide),
   (register_single_slot ⟨⟨"ann", "secr3t"⟩, "1.0", []⟩ (by decide) ⟨"bob", "pass123"⟩
      "bob" "pass123").2.2⟩

/-- C7 counterexample: the path segment `+1` is not a strict decimal
integer (leading plus sign), yet on a one-entry document the handler
deletes the entry and answers 200 instead of the claimed 400. -/
theorem delete_lenient_parse_cex :
    handleDeleteEntry ⟨⟨"", ""⟩, "1.0", [⟨"rizz", "charisma", "", "", none⟩]⟩
        "/api/entries/+1"
      = (.ok 200 (Json.obj [("message", Json.str "Слово удалено")]),
         ⟨⟨"", ""⟩, "1.0", []⟩) := rfl

/-- C7 (amended): the 400 bad-index response is produced exactly when
`strconv.Atoi` fails on the stripped path segment or parses it to a value
below 1; in that case the document is unchanged.  `Atoi` accepts a leading
`+`/`-` sign and leading zeros, so such segments are not rejected. -/
theorem delete_bad_index_iff (d : SlangData) (path : String) :
    ((handleDeleteEntry d path).1 = .err 400 "Неверный индекс" ↔
      atoi (trimPathIndex path) = none
      ∨ ∃ n, atoi (trimPathIndex path) = some n ∧ n < 1)
    ∧ ((handleDeleteEntry d path).1 = .err 400 "Неверный индекс" →
        (handleDeleteEntry d path).2 = d) := by
  rcases hp : atoi (trimPathIndex path) with _ | n
  · simp [handleDeleteEntry, hp]
  · by_cases hn : n < 1
    · simp [handleDeleteEntry, hp, hn]
    · by_cases hlen : n > (d.entries.length : Int) <;>
        simp [handleDeleteEntry, hp, hn, hlen]

/-- Witness for `delete_bad_index_iff`: a non-numeric segment yields the
400 bad-index response. -/
theorem delete_bad_index_iff_witness :
    (handleDeleteEntry ⟨⟨"", ""⟩, "1.0", []⟩ "/api/entries/abc").1
      = .err 400 "Неверный индекс" :=
  (delete_bad_index_iff ⟨⟨"", ""⟩, "1.0", []⟩ "/api/entries/abc").1.mpr (Or.inl rfl)

/-- C6 counterexample: the interactive add with a whitespace-only word
performs no validation — it appends an entry with an empty word to the
stored list instead of failing. -/
theorem add_empty_word_cli_cex :
    addNewEntryCLI ⟨⟨"", ""⟩, "1.0", []⟩ " " "meaning" "" "" ""
      = (.added "", ⟨⟨"", ""⟩, "1.0", [⟨"", "meaning", "", "", none⟩]⟩) := rfl

/-- C6 (amended): the HTTP add rejects a candidate whose word or meaning is
empty after trimming with the 400 validation error and leaves the document
unchanged; the interactive add has no such validation and appends the
trimmed entry whenever its word is not a case-insensitive duplicate, even
when the trimmed word or meaning is empty. -/
theorem add_validation_http_only (d : SlangData) (e : SlangEntry)
    (h : trimSpace e.word = "" ∨ trimSpace e.meaning = "")
    (wIn mIn exIn ogIn syIn : String)
    (hnodup : d.entries.any (fun x => equalFold x.word (trimSpace wIn)) = false) :
    handleAddEntry d (some e) = (.err 400 "Слово и значение обязательны", d)
    ∧ (addNewEntryCLI d wIn mIn exIn ogIn syIn).2.entries
        = d.entries ++
          [{ word := trimSpace wIn, meaning := trimSpace mIn,
             «example» := trimSpace exIn, origin := trimSpace ogIn,
             synonyms := if trimSpace syIn = "" then none
               else some ((splitComma (trimSpace syIn)).map trimSpace) }] := by
  constructor
  · simp [handleAddEntry, h]
  · simp [addNewEntryCLI, hnodup]

/-- Witness for `add_validation_http_only` at concrete inputs. -/
theorem add_validation_http_only_witness :
    handleAddEntry ⟨⟨"", ""⟩, "1.0", []⟩ (some ⟨" ", "m", "", "", none⟩)
      = (.err 400 "Слово и значение обязательны", ⟨⟨"", ""⟩, "1.0", []⟩)
    ∧ (addNewEntryCLI ⟨⟨"", ""⟩, "1.0", []⟩ " " "m" "" "" "").2.entries
      = [⟨"", "m", "", "", none⟩] := by
  have h := add_validation_http_only ⟨⟨"", ""⟩, "1.0", []⟩ ⟨" ", "m", "", "", none⟩
    (by decide) " " "m" "" "" "" (by decide)
  exact ⟨h.1, by rw [h.2]; rfl⟩

/-- C2: once an entry `e1` is committed, adding a valid candidate `e2`
whose word is case-insensitively equal to `e1`'s fails — with 409 and an
unchanged document over HTTP, and with the duplicate refusal and an
unchanged document in the interactive add (where the duplicate check fires
for any input line trimming to `e2`'s word). -/
theorem duplicate_add_rejected (d : SlangData) (e1 e2 : SlangEntry)
    (h1 : e1 ∈ d.entries) (heq : equalFold e1.word e2.word = true)
    (hw : trimSpace e2.word ≠ "") (hm : trimSpace e2.meaning ≠ "")
    (wIn mIn exIn ogIn syIn : String) (hwIn : trimSpace wIn = e2.word) :
    handleAddEntry d (some e2) = (.err 409 "Слово уже существует", d)
    ∧ addNewEntryCLI d wIn mIn exIn ogIn syIn = (.duplicate e2.word, d) := by
  have hdup : d.entries.any (fun e => equalFold e.word e2.word) = true :=
    List.any_eq_true.mpr ⟨e1, h1, heq⟩
  constructor
  · simp [handleAddEntry, hw, hm, hdup]
  · simp [addNewEntryCLI, hwIn, hdup]

/-- Witness for `duplicate_add_rejected` at a concrete document and
candidate differing only in letter case. -/
theorem duplicate_add_rejected_witness :
    handleAddEntry ⟨⟨"", ""⟩, "1.0", [⟨"Rizz", "charisma", "", "", none⟩]⟩
        (some ⟨"RIZZ", "charm", "", "", none⟩)
      = (.err 409 "Слово уже существует",
         ⟨⟨"", ""⟩, "1.0", [⟨"Rizz", "charisma", "", "", none⟩]⟩)
    ∧ addNewEntryCLI ⟨⟨"", ""⟩, "1.0", [⟨"Rizz", "charisma", "", "", none⟩]⟩
        "RIZZ" "charm" "" "" ""
      = (.duplicate "RIZZ", ⟨⟨"", ""⟩, "1.0", [⟨"Rizz", "charisma", "", "", none⟩]⟩) :=
  duplicate_add_rejected ⟨⟨"", ""⟩, "1.0", [⟨"Rizz", "charisma", "", "", none⟩]⟩
    ⟨"Rizz", "charisma", "", "", none⟩ ⟨"RIZZ", "charm", "", "", none⟩
    (by decide) (by decide) (by decide) (by decide) "RIZZ" "charm" "" "" "" (by decide)

/-- C10: the HTTP add stores the candidate verbatim (no trimming) and its
duplicate check compares untrimmed words, so a candidate whose word is a
stored word with a space prepended is *not* a duplicate: the add succeeds
and both entries end up stored, the new one with its padded word intact. -/
theorem add_untrimmed_word (d : SlangData) (e c : SlangEntry)
    (he : e ∈ d.entries) (hw : c.word = " " ++ e.word)
    (hv : trimSpace e.word ≠ "") (hm : trimSpace c.meaning ≠ "")
    (hothers : ∀ x ∈ d.entries, x ≠ e → equalFold x.word c.word = false) :
    handleAddEntry d (some c)
      = (.ok 201 (Json.obj [("message", Json.str "Слово добавлено")]),
         { d with entries := d.entries ++ [c] })
    ∧ e ∈ (d.entries ++ [c]) ∧ c ∈ (d.entries ++ [c]) := by
  have hlen : equalFold e.word c.word = false := by
    apply equalFold_false_of_length_ne
    rw [hw, String.data_append]
    simp
  have hall : ∀ x ∈ d.entries, equalFold x.word c.word = false := by
    intro x hx
    by_cases hxe : x = e
    · rw [hxe]; exact hlen
    · exact hothers x hx hxe
  have hdup : d.entries.any (fun x => equalFold x.word c.word) = false := by
    rw [List.any_eq_false]
    intro x hx
    simp [hall x hx]
  have hcw : trimSpace c.word ≠ "" := by
    rw [hw, trimSpace_space_prepend]; exact hv
  refine ⟨?_, List.mem_append_left _ he, List.mem_append_right _ (List.mem_singleton.mpr rfl)⟩
  simp [handleAddEntry, hcw, hm, hdup]

/-- Witness for `add_untrimmed_word` at a concrete document: adding
`" rizz"` next to the stored `"rizz"` succeeds and stores both. -/
theorem add_untrimmed_word_witness :
    handleAddEntry ⟨⟨"", ""⟩, "1.0", [⟨"rizz", "charisma", "", "", none⟩]⟩
        (some ⟨" rizz", "padded", "", "", none⟩)
      = (.ok 201 (Json.obj [("message", Json.str "Слово добавлено")]),
         ⟨⟨"", ""⟩, "1.0",
          [⟨"rizz", "charisma", "", "", none⟩, ⟨" rizz", "padded", "", "", none⟩]⟩) :=
  (add_untrimmed_word ⟨⟨"", ""⟩, "1.0", [⟨"rizz", "charisma", "", "", none⟩]⟩
    ⟨"rizz", "charisma", "", "", none⟩ ⟨" rizz", "padded", "", "", none⟩
    (by decide) (by decide) (by decide) (by decide) (by decide)).1

/-- C9: `/api/user`, `/api/register` and `/api/login` are registered with
no method dispatch — the response is the same for every pair of HTTP
methods — and concretely a GET to `/api/register` with a valid body on the
empty document performs the registration. -/
theorem no_method_dispatch (d : SlangData) (body : Option Json) (m1 m2 : Method) :
    serveAPI d m1 "/api/user" body = serveAPI d m2 "/api/user" body
    ∧ serveAPI d m1 "/api/register" body = serveAPI d m2 "/api/register" body
    ∧ serveAPI d m1 "/api/login" body = serveAPI d m2 "/api/login" body
    ∧ serveAPI defaultSlangData .get "/api/register"
        (some (Json.obj [("username", Json.str "ann"), ("password", Json.str "secr3t")]))
      = (.ok 201 (Json.obj [("message", Json.str "Регистрация успешна")]),
         ⟨⟨"ann", "secr3t"⟩, "1.0", []⟩) :=
  ⟨rfl, rfl, rfl, rfl⟩

/-- C3 counterexample: a document whose entry carries a present-but-empty
synonyms list (Go: a non-nil empty slice) does not survive a save/load
round trip — `omitempty` drops the field on save and it loads back as
absent (nil). -/
theorem round_trip_cex :
    loadSlangData (some (saveSlangData
        ⟨⟨"", ""⟩, "1.0", [⟨"a", "b", "", "", some []⟩]⟩))
      ≠ ⟨⟨"", ""⟩, "1.0", [⟨"a", "b", "", "", some []⟩]⟩ := by decide

/-- C3 (amended): saving a document and loading it back restores every
field — user, version, entry order and the presence or absence of each
optional field — provided no entry carries a present-but-empty synonyms
list (the one state `omitempty` collapses to absent). -/
theorem save_load_round_trip (d : SlangData)
    (h : ∀ e ∈ d.entries, e.synonyms ≠ some []) :
    loadSlangData (some (saveSlangData d)) = d := by
  simp [loadSlangData, saveSlangData, unmarshalSlangData, dataFieldStep,
    List.foldlM, decodeUser_marshalUser, decodeEntries_map_marshalEntry d.entries h]

/-- Witness for `save_load_round_trip` on a document exercising both
optional fields in both states. -/
theorem save_load_round_trip_witness :
    loadSlangData (some (saveSlangData
        ⟨⟨"ann", "secr3t"⟩, "1.0",
         [⟨"rizz", "charisma", "ex", "tiktok", some ["charm", "appeal"]⟩,
          ⟨"mid", "mediocre", "", "", none⟩]⟩))
      = ⟨⟨"ann", "secr3t"⟩, "1.0",
         [⟨"rizz", "charisma", "ex", "tiktok", some ["charm", "appeal"]⟩,
          ⟨"mid", "mediocre", "", "", none⟩]⟩ :=
  save_load_round_trip _ (by decide)

/-- C1: with the path parsing to position `p` and an affirmative
confirmation, both deletes succeed exactly for `1 ≤ p ≤ N`; outside that
range both fail (HTTP with the 400/404 range errors, the session with its
empty-dictionary or no-such-number message) leaving the document unchanged;
on success the stored entries are the old list spliced at `p` — same
length minus one, entries before `p` unchanged, entries after `p` shifted
down by one — with the user and version fields untouched. -/
theorem delete_position_law (d : SlangData) (p : Int) (path : String)
    (hparse : atoi (trimPathIndex path) = some p)
    (confirm : String) (hconf : isAffirmative confirm = true) :
    ((handleDeleteEntry d path).1.isOk = true ↔ 1 ≤ p ∧ p ≤ (d.entries.length : Int))
    ∧ (¬(1 ≤ p ∧ p ≤ (d.entries.length : Int)) →
        (handleDeleteEntry d path).2 = d
        ∧ ((handleDeleteEntry d path).1 = .err 400 "Неверный индекс"
            ∨ (handleDeleteEntry d path).1 = .err 404 "Слово не найдено")
        ∧ (deleteEntryCLI d (some p) confirm).2 = d
        ∧ ((deleteEntryCLI d (some p) confirm).1 = .emptyDict
            ∨ (deleteEntryCLI d (some p) confirm).1 = .badNumber))
    ∧ (1 ≤ p ∧ p ≤ (d.entries.length : Int) →
        (handleDeleteEntry d path).2
          = { d with entries := d.entries.take (p.toNat - 1) ++ d.entries.drop p.toNat }
        ∧ (handleDeleteEntry d path).2.user = d.user
        ∧ (handleDeleteEntry d path).2.version = d.version
        ∧ (deleteEntryCLI d (some p) confirm).2 = (handleDeleteEntry d path).2
        ∧ (deleteEntryCLI d (some p) confirm).1
            = .deleted (d.entries.getD (p.toNat - 1) ⟨"", "", "", "", none⟩).word
        ∧ (d.entries.take (p.toNat - 1) ++ d.entries.drop p.toNat).length
            = d.entries.length - 1
        ∧ (∀ i : Nat, i < p.toNat - 1 →
            (d.entries.take (p.toNat - 1) ++ d.entries.drop p.toNat)[i]? = d.entries[i]?)
        ∧ (∀ i : Nat, p.toNat - 1 ≤ i →
            (d.entries.take (p.toNat - 1) ++ d.entries.drop p.toNat)[i]? = d.entries[i + 1]?)) := by
  by_cases hb : 1 ≤ p ∧ p ≤ (d.entries.length : Int)
  · obtain ⟨h1, h2⟩ := hb
    have hn1 : ¬ p < 1 := by omega
    have hn2 : ¬ p > (d.entries.length : Int) := by omega
    have hlen0 : ¬ d.entries.length = 0 := by omega
    have hp1 : 1 ≤ p.toNat := by omega
    have hp2 : p.toNat ≤ d.entries.length := by omega
    have hH : handleDeleteEntry d path
        = (.ok 200 (Json.obj [("message", Json.str "Слово удалено")]),
           { d with entries := d.entries.take (p.toNat - 1) ++ d.entries.drop p.toNat }) := by
      simp [handleDeleteEntry, hparse, hn1, hn2]
    have hC : deleteEntryCLI d (some p) confirm
        = (.deleted (d.entries.getD (p.toNat - 1) ⟨"", "", "", "", none⟩).word,
           { d with entries := d.entries.take (p.toNat - 1) ++ d.entries.drop p.toNat }) := by
      simp [deleteEntryCLI, hlen0, hn1, hn2, hconf]
    have htake : (d.entries.take (p.toNat - 1)).length = p.toNat - 1 := by
      rw [List.length_take]; omega
    refine ⟨by simp [hH, HttpResponse.isOk, h1, h2], fun hc => absurd ⟨h1, h2⟩ hc, fun _ => ?_⟩
    refine ⟨by rw [hH], by rw [hH], by rw [hH], by rw [hH, hC], by rw [hC], ?_, ?_, ?_⟩
    · rw [List.length_append, htake, List.length_drop]; omega
    · intro i hi
      rw [List.getElem?_append_left (by rw [htake]; exact hi),
        List.getElem?_take_of_lt hi]
    · intro i hi
      rw [List.getElem?_append_right (by rw [htake]; exact hi), htake,
        List.getElem?_drop]
      congr 1
      omega
  · have hor : p < 1 ∨ p > (d.entries.length : Int) := by omega
    have hH : handleDeleteEntry d path = (.err 400 "Неверный индекс", d)
        ∨ handleDeleteEntry d path = (.err 404 "Слово не найдено", d) := by
      rcases hor with hp | hp
      · exact Or.inl (by simp [handleDeleteEntry, hparse, hp])
      · have hn1 : ¬ p < 1 := by omega
        exact Or.inr (by simp [handleDeleteEntry, hparse, hn1, hp])
    have hC : deleteEntryCLI d (some p) confirm = (.emptyDict, d)
        ∨ deleteEntryCLI d (some p) confirm = (.badNumber, d) := by
      by_cases hlen : d.entries.length = 0
      · exact Or.inl (by simp [deleteEntryCLI, hlen])
      · exact Or.inr (by simp [deleteEntryCLI, hlen, hor])
    refine ⟨?_, fun _ => ?_, fun hc => absurd hc hb⟩
    · rcases hH with hH | hH <;> simp [hH, HttpResponse.isOk, hb]
    · rcases hH with hH | hH <;> rcases hC with hC | hC <;>
        simp [hH, hC]

/-- Witness for `delete_position_law`: deleting position 1 of a two-entry
document succeeds and leaves exactly the second entry. -/
theorem delete_position_law_witness :
    (handleDeleteEntry ⟨⟨"", ""⟩, "1.0",
        [⟨"a", "m1", "", "", none⟩, ⟨"b", "m2", "", "", none⟩]⟩ "/api/entries/1").1.isOk
      = true
    ∧ (handleDeleteEntry ⟨⟨"", ""⟩, "1.0",
        [⟨"a", "m1", "", "", none⟩, ⟨"b", "m2", "", "", none⟩]⟩ "/api/entries/1").2.entries
      = [⟨"b", "m2", "", "", none⟩] := by
  have h := delete_position_law ⟨⟨"", ""⟩, "1.0",
      [⟨"a", "m1", "", "", none⟩, ⟨"b", "m2", "", "", none⟩]⟩ 1 "/api/entries/1"
      (by decide) "y" (by decide)
  refine ⟨h.1.mpr (by decide), ?_⟩
  rw [(h.2.2 (by decide)).1]
  rfl
